import Mathlib

/-!
Shallow embedding of the property-package core of `process_sim`
(`src/properties.py`, `src/core.py`).

Conventions of the embedding:
* Python floats are modelled as real numbers `ℝ`; numpy 1-D arrays as `List ℝ`.
* Complex numbers returned by `np.roots` are modelled as pairs of reals
  (`Cplx`); the numerical root finder `np.roots` itself is an external
  routine, modelled as an oracle parameter `rootsOf : List ℝ → List Cplx`
  mapping a coefficient list to the list of roots it reports.
* Python exceptions are modelled as values of `PyError` carrying the
  exception type used at the raise site and its message string.
* The mutable single-object cache `self._cache` (a Python dict, always
  reassigned wholesale) is modelled by explicit state passing of an
  association list `SRKCache`; every stateful method returns its result
  together with the cache state after the call.
-/

namespace ProcessSim

/-- A complex number as produced by `np.roots`: real and imaginary part. -/
structure Cplx where
  re : ℝ
  im : ℝ

/-- Python exception values raised by the embedded code, tagged with the
Python exception class used at the raise site and the message. -/
inductive PyError where
  | exception (msg : String)
  | valueError (msg : String)
  | unboundLocalError (msg : String)
deriving DecidableEq

/-- numpy dot product `a @ b` of two 1-D arrays. -/
noncomputable def dot (a b : List ℝ) : ℝ :=
  ((a.zip b).map (fun p => p.1 * p.2)).sum

/-- `np.max(l) if len(l) > 0 else None`. -/
noncomputable def npMax : List ℝ → Option ℝ
  | [] => none
  | a :: l =>
    match npMax l with
    | none => some a
    | some m => some (max a m)

/-- `np.min(l) if len(l) > 0 else None`. -/
noncomputable def npMin : List ℝ → Option ℝ
  | [] => none
  | a :: l =>
    match npMin l with
    | none => some a
    | some m => some (min a m)

/-- Per-component data arrays held by `PureComponentDataBackend`:
acentric factor, critical temperature (K), critical pressure (Pa). -/
structure PureComponentData where
  omega : List ℝ
  Tc : List ℝ
  Pc : List ℝ

/-- The dict of SRK parameters returned by
`SoaveRedlichKwongBackend._get_SRK_parameters`. -/
structure SRKParams where
  alpha : List ℝ
  A_mix : ℝ
  B_mix : ℝ
  Tc : List ℝ
  Pc : List ℝ

/-- The cache key `(temperature_K, pressure_Pa, tuple(molar_composition))`. -/
abbrev SRKKey := ℝ × ℝ × List ℝ

/-- The backend cache `self._cache`, a Python dict modelled as an
association list of key/params pairs. -/
abbrev SRKCache := List (SRKKey × SRKParams)

/-- Python dict membership + lookup (`cache_key in self._cache` followed by
`self._cache[cache_key]`). -/
noncomputable def dictLookup : SRKCache → SRKKey → Option SRKParams
  | [], _ => none
  | (k1, v) :: rest, k => if k = k1 then some v else dictLookup rest k

/-- `SoaveRedlichKwongBackend._get_SRK_parameters`.  On a cache hit the
cached params are returned and the cache is untouched.  On a miss with two
or more components the SRK alpha function and the mixing rule are applied
and the whole cache is replaced by the single new entry
(`self._cache = {cache_key: params}`).  On a miss with at most one
component the guarded branch is skipped and building the result dict hits
the unassigned local `alpha`, raising `UnboundLocalError` before the cache
assignment line. -/
noncomputable def getSRKParams (data : PureComponentData) (cache : SRKCache)
    (temperature_K pressure_Pa : ℝ) (molar_composition : List ℝ) :
    Except PyError SRKParams × SRKCache :=
  let cache_key : SRKKey := (temperature_K, pressure_Pa, molar_composition)
  match dictLookup cache cache_key with
  | some params => (.ok params, cache)
  | none =>
    if 1 < molar_composition.length then
      let m := data.omega.map (fun w => 0.48 + 1.574 * w - 0.176 * w ^ 2)
      let T_r := data.Tc.map (fun tc => temperature_K / tc)
      let alpha := List.zipWith
        (fun mi tri => (1 + mi * (1 - Real.sqrt tri)) ^ 2) m T_r
      let A_mix := 0.42747 * pressure_Pa / temperature_K ^ 2 *
        (dot molar_composition
          (List.zipWith (fun tc other => tc * Real.sqrt other.1 / Real.sqrt other.2)
            data.Tc (alpha.zip data.Pc))) ^ 2
      let B_mix := 0.08664 * pressure_Pa / temperature_K *
        (dot molar_composition (List.zipWith (fun tc pc => tc / pc) data.Tc data.Pc))
      let params : SRKParams :=
        { alpha := alpha, A_mix := A_mix, B_mix := B_mix, Tc := data.Tc, Pc := data.Pc }
      (.ok params, [(cache_key, params)])
    else
      (.error (.unboundLocalError "local variable 'alpha' referenced before assignment"),
       cache)

/-- The positive real roots retained by `get_compressibility_factor`:
`real_roots = roots[np.abs(roots.imag) < 1e-10].real` followed by
`positive_roots = real_roots[real_roots > 0]`. -/
noncomputable def positiveRealRoots (roots : List Cplx) : List ℝ :=
  ((roots.filter (fun r => decide (|r.im| < 1e-10))).map Cplx.re).filter
    (fun z => decide (0 < z))

/-- `SoaveRedlichKwongBackend.get_compressibility_factor`.  Forms the cubic
coefficients `[1, -1, A - B - B^2, -A*B]`, asks the root oracle (`np.roots`)
for all roots, filters them, and selects by phase; an unrecognized phase
raises the generic `Exception`, an empty positive-real-root set leaves
`Z_val = None` and raises `ValueError` afterwards. -/
noncomputable def get_compressibility_factor (rootsOf : List ℝ → List Cplx)
    (data : PureComponentData) (cache : SRKCache) (phase : String)
    (temperature_K pressure_Pa : ℝ) (molar_composition : List ℝ) :
    Except PyError ℝ × SRKCache :=
  match getSRKParams data cache temperature_K pressure_Pa molar_composition with
  | (.error e, c) => (.error e, c)
  | (.ok params, c) =>
    let A_mix := params.A_mix
    let B_mix := params.B_mix
    let coefs : List ℝ := [1, -1, A_mix - B_mix - B_mix ^ 2, -1 * (A_mix * B_mix)]
    let roots := rootsOf coefs
    let positive_roots := positiveRealRoots roots
    let Z_val : Except PyError (Option ℝ) :=
      if phase = "v" then .ok (npMax positive_roots)
      else if phase = "l" then .ok (npMin positive_roots)
      else .error (.exception
        "Phase is not specified properly, please select either 'v' for vapour or 'l' for liquid")
    match Z_val with
    | .error e => (.error e, c)
    | .ok none =>
      (.error (.valueError "No physically meaningful compressibility factor found"), c)
    | .ok (some z) => (.ok z, c)

/-- The per-component log fugacity coefficient vector `phi_log` computed by
`get_fugacity_coefs` from the SRK parameters and the compressibility factor. -/
noncomputable def phiLog (params : SRKParams) (Z_val : ℝ) (molar_composition : List ℝ) : List ℝ :=
  let num := List.zipWith
    (fun tc other => Real.sqrt other.1 * tc / Real.sqrt other.2)
    params.Tc (params.alpha.zip params.Pc)
  let alphaFrac := num.map (fun v => v / dot molar_composition num)
  let bvec := List.zipWith (fun tc pc => tc / pc) params.Tc params.Pc
  let bFrac := bvec.map (fun v => v / dot molar_composition bvec)
  List.zipWith
    (fun br ar =>
      br * (Z_val - 1) - Real.log (Z_val - params.B_mix) -
        params.A_mix / params.B_mix * (2 * ar - br) *
          Real.log (1 + params.B_mix / Z_val))
    bFrac alphaFrac

/-- `SoaveRedlichKwongBackend.get_fugacity_coefs`: obtains the SRK
parameters, evaluates the compressibility factor with `phase='v'`, builds
the log coefficients `phi_log` and returns `np.exp(phi_log)`. -/
noncomputable def get_fugacity_coefs (rootsOf : List ℝ → List Cplx)
    (data : PureComponentData) (cache : SRKCache)
    (temperature_K pressure_Pa : ℝ) (molar_composition : List ℝ) :
    Except PyError (List ℝ) × SRKCache :=
  match getSRKParams data cache temperature_K pressure_Pa molar_composition with
  | (.error e, c) => (.error e, c)
  | (.ok params, c) =>
    match get_compressibility_factor rootsOf data c "v"
        temperature_K pressure_Pa molar_composition with
    | (.error e, c1) => (.error e, c1)
    | (.ok Z_val, c1) =>
      (.ok ((phiLog params Z_val molar_composition).map Real.exp), c1)

/-- The phase-split result the spec assigns to `tp_flash` on an unstable
state: vapor fraction, vapor-phase composition, liquid-phase composition. -/
structure FlashResult where
  beta : ℝ
  y : List ℝ
  x_liquid : List ℝ

/-- `GammaPhiPackage._TPD_stability_test`: computes the fugacity
coefficients (any exception from that call propagates) and then returns
the constant `True`. -/
noncomputable def TPD_stability_test (rootsOf : List ℝ → List Cplx)
    (data : PureComponentData) (cache : SRKCache)
    (temperature_K pressure_Pa : ℝ) (molar_composition : List ℝ) :
    Except PyError Bool × SRKCache :=
  match get_fugacity_coefs rootsOf data cache temperature_K pressure_Pa
      molar_composition with
  | (.error e, c) => (.error e, c)
  | (.ok _, c) => (.ok true, c)

/-- `GammaPhiPackage.TP_flash`: runs the stability test (any exception
propagates), discards its result, and returns the Python constant `None`
(modelled as `Option.none` at type `Option FlashResult`). -/
noncomputable def TP_flash (rootsOf : List ℝ → List Cplx)
    (data : PureComponentData) (cache : SRKCache)
    (temperature_K pressure_Pa : ℝ) (molar_composition : List ℝ) :
    Except PyError (Option FlashResult) × SRKCache :=
  match TPD_stability_test rootsOf data cache temperature_K pressure_Pa
      molar_composition with
  | (.error e, c) => (.error e, c)
  | (.ok _, c) => (.ok none, c)

/-- `np.isclose(a, b, atol=1e-12)` with numpy's default relative tolerance
`rtol=1e-5`: true iff `|a - b| <= atol + rtol * |b|`. -/
abbrev npIsclose (a b : ℝ) : Prop :=
  |a - b| ≤ 1e-12 + 1e-5 * |b|

/-- The fields of the `Stream` dataclass (`src/core.py`). -/
structure StreamData where
  pressure_Pa : ℝ
  temperature_K : ℝ
  components : List String
  molar_composition : List ℝ
  molar_flow_mol_s : ℝ

/-- `Stream.__post_init__`: construction-time validation of the molar
composition.  Sum close to 1 (`np.isclose` with `atol=1e-12`), no entry
below `-1e-12`, and length matching the component list; each violation
raises `ValueError` at construction. -/
noncomputable def streamPostInit (s : StreamData) : Except PyError StreamData :=
  if ¬ npIsclose s.molar_composition.sum 1.0 then
    .error (.valueError "Molar_composition must sum to 1.0")
  else if s.molar_composition.any (fun z => decide (z < -1e-12)) then
    .error (.valueError "Composition has negative entries.")
  else if s.molar_composition.length ≠ s.components.length then
    .error (.valueError "Composition length does not match backend components.")
  else
    .ok s

/-! Spec-side definitions, written from the words of the specification
(section 4.2), to be compared with the source-side `getSRKParams`. -/

/-- The molar gas constant as used by `scipy.constants.R`. -/
def Rgas : ℝ := 8.314462618

/-- Spec formula `m_i = 0.48 + 1.574*omega_i - 0.176*omega_i^2`. -/
def specM (w : ℝ) : ℝ := 0.48 + 1.574 * w - 0.176 * w ^ 2

/-- Spec formula `alpha_i = (1 + m_i*(1 - sqrt(T/Tc_i)))^2`. -/
noncomputable def specAlpha (T tc w : ℝ) : ℝ :=
  (1 + specM w * (1 - Real.sqrt (T / tc))) ^ 2

/-- Spec per-component SRK attraction parameter `a_i = a_c,i * alpha_i`
with `a_c,i = 0.42747 * R^2 * Tc_i^2 / Pc_i`. -/
noncomputable def spec_a (T tc pc w : ℝ) : ℝ :=
  0.42747 * (Rgas ^ 2 * tc ^ 2) / pc * specAlpha T tc w

/-- Spec per-component SRK covolume `b_i = 0.08664 * R * Tc_i / Pc_i`. -/
noncomputable def spec_b (tc pc : ℝ) : ℝ :=
  0.08664 * (Rgas * tc) / pc

/-- Spec van der Waals one-fluid mixture attraction
`a_mix = (sum_i x_i * sqrt(a_i))^2`. -/
noncomputable def spec_a_mix (T : ℝ) (x omega Tc Pc : List ℝ) : ℝ :=
  (dot x (List.zipWith (fun w other => Real.sqrt (spec_a T other.1 other.2 w))
    omega (Tc.zip Pc))) ^ 2

/-- Spec van der Waals one-fluid mixture covolume `b_mix = sum_i x_i * b_i`. -/
noncomputable def spec_b_mix (x Tc Pc : List ℝ) : ℝ :=
  dot x (List.zipWith spec_b Tc Pc)

/-! Helper lemmas. -/

theorem npMax_eq_none_iff (l : List ℝ) : npMax l = none ↔ l = [] := by
  cases l with
  | nil => simp [npMax]
  | cons a t =>
    cases h : npMax t <;> simp [npMax, h]

theorem npMax_mem {l : List ℝ} {m : ℝ} (h : npMax l = some m) : m ∈ l := by
  induction l generalizing m with
  | nil => simp [npMax] at h
  | cons a t ih =>
    cases ht : npMax t with
    | none =>
      rw [npMax, ht] at h
      simp only [Option.some.injEq] at h
      simp [← h]
    | some mt =>
      rw [npMax, ht] at h
      simp only [Option.some.injEq] at h
      rcases max_choice a mt with hc | hc <;> rw [hc] at h
      · simp [← h]
      · exact List.mem_cons_of_mem a (ih (h ▸ ht))

theorem le_npMax {l : List ℝ} {m : ℝ} (h : npMax l = some m) :
    ∀ b ∈ l, b ≤ m := by
  induction l generalizing m with
  | nil => simp
  | cons a t ih =>
    intro b hb
    cases ht : npMax t with
    | none =>
      rw [npMax, ht] at h
      simp only [Option.some.injEq] at h
      rcases List.mem_cons.mp hb with hba | hbt
      · exact le_of_eq (hba.trans h)
      · exact absurd ((npMax_eq_none_iff t).mp ht ▸ hbt) (List.not_mem_nil b)
    | some mt =>
      rw [npMax, ht] at h
      simp only [Option.some.injEq] at h
      rcases List.mem_cons.mp hb with hba | hbt
      · exact h ▸ hba ▸ le_max_left a mt
      · exact le_trans (ih ht b hbt) (h ▸ le_max_right a mt)

theorem npMin_eq_none_iff (l : List ℝ) : npMin l = none ↔ l = [] := by
  cases l with
  | nil => simp [npMin]
  | cons a t =>
    cases h : npMin t <;> simp [npMin, h]

theorem npMin_mem {l : List ℝ} {m : ℝ} (h : npMin l = some m) : m ∈ l := by
  induction l generalizing m with
  | nil => simp [npMin] at h
  | cons a t ih =>
    cases ht : npMin t with
    | none =>
      rw [npMin, ht] at h
      simp only [Option.some.injEq] at h
      simp [← h]
    | some mt =>
      rw [npMin, ht] at h
      simp only [Option.some.injEq] at h
      rcases min_choice a mt with hc | hc <;> rw [hc] at h
      · simp [← h]
      · exact List.mem_cons_of_mem a (ih (h ▸ ht))

theorem npMin_le {l : List ℝ} {m : ℝ} (h : npMin l = some m) :
    ∀ b ∈ l, m ≤ b := by
  induction l generalizing m with
  | nil => simp
  | cons a t ih =>
    intro b hb
    cases ht : npMin t with
    | none =>
      rw [npMin, ht] at h
      simp only [Option.some.injEq] at h
      rcases List.mem_cons.mp hb with hba | hbt
      · exact le_of_eq (h.symm.trans hba.symm)
      · exact absurd ((npMin_eq_none_iff t).mp ht ▸ hbt) (List.not_mem_nil b)
    | some mt =>
      rw [npMin, ht] at h
      simp only [Option.some.injEq] at h
      rcases List.mem_cons.mp hb with hba | hbt
      · exact h ▸ hba ▸ min_le_left a mt
      · exact le_trans (h ▸ min_le_right a mt) (ih ht b hbt)

theorem mem_positiveRealRoots (roots : List Cplx) (z : ℝ) :
    z ∈ positiveRealRoots roots ↔
      ∃ r ∈ roots, |r.im| < 1e-10 ∧ r.re = z ∧ 0 < z := by
  simp only [positiveRealRoots, List.mem_filter, List.mem_map,
    decide_eq_true_eq]
  constructor
  · rintro ⟨⟨r, ⟨hr, him⟩, hre⟩, hz⟩
    exact ⟨r, hr, him, hre, hz⟩
  · rintro ⟨r, hr, him, hre, hz⟩
    exact ⟨⟨r, ⟨hr, him⟩, hre⟩, hz⟩

@[simp] theorem dictLookup_nil (k : SRKKey) : dictLookup [] k = none := rfl

/-- C1: at every state `(T, P, x)` whose mixture parameters `A_mix`, `B_mix`
were computed, `get_compressibility_factor` forms the cubic
`Z^3 - Z^2 + (A_mix - B_mix - B_mix^2) Z - A_mix*B_mix = 0`, keeps exactly
the reported roots whose imaginary part is within `1e-10` of zero and whose
real part is strictly positive, and returns the maximum such root when
`phase = 'v'` (vapor) and the minimum such root when `phase = 'l'`
(liquid). -/
theorem c1_root_selection (rootsOf : List ℝ → List Cplx)
    (data : PureComponentData) (cache c : SRKCache) (T P : ℝ)
    (x : List ℝ) (params : SRKParams) (kept : List ℝ)
    (hp : getSRKParams data cache T P x = (.ok params, c))
    (hk : kept = positiveRealRoots (rootsOf
      [1, -1, params.A_mix - params.B_mix - params.B_mix ^ 2,
        -1 * (params.A_mix * params.B_mix)])) :
    (∀ z, z ∈ kept ↔
      ∃ r ∈ rootsOf [1, -1, params.A_mix - params.B_mix - params.B_mix ^ 2,
          -1 * (params.A_mix * params.B_mix)],
        |r.im| < 1e-10 ∧ r.re = z ∧ 0 < z) ∧
    (kept ≠ [] →
      (∃ zv, get_compressibility_factor rootsOf data cache "v" T P x =
          (.ok zv, c) ∧ zv ∈ kept ∧ ∀ w ∈ kept, w ≤ zv) ∧
      (∃ zl, get_compressibility_factor rootsOf data cache "l" T P x =
          (.ok zl, c) ∧ zl ∈ kept ∧ ∀ w ∈ kept, zl ≤ w)) := by
  constructor
  · intro z
    rw [hk]
    exact mem_positiveRealRoots _ z
  · intro hne
    obtain ⟨zv, hv⟩ : ∃ m, npMax kept = some m := by
      cases h : npMax kept with
      | none => exact absurd ((npMax_eq_none_iff kept).mp h) hne
      | some m => exact ⟨m, rfl⟩
    obtain ⟨zl, hl⟩ : ∃ m, npMin kept = some m := by
      cases h : npMin kept with
      | none => exact absurd ((npMin_eq_none_iff kept).mp h) hne
      | some m => exact ⟨m, rfl⟩
    constructor
    · refine ⟨zv, ?_, npMax_mem hv, le_npMax hv⟩
      unfold get_compressibility_factor
      rw [hp]
      dsimp only
      rw [if_pos rfl, ← hk, hv]
    · refine ⟨zl, ?_, npMin_mem hl, npMin_le hl⟩
      unfold get_compressibility_factor
      rw [hp]
      dsimp only
      rw [if_neg (by decide), if_pos rfl, ← hk, hl]

/-! Concrete fixture used to instantiate the theorems: a two-component
backend with unit critical data and zero acentric factors, at
`T = 1`, `P = 1`, equimolar composition, and a root oracle reporting the
root list `[2, 1/2, -1]` (all real). -/

noncomputable def wData : PureComponentData := ⟨[0, 0], [1, 1], [1, 1]⟩

noncomputable def wOracle : List ℝ → List Cplx :=
  fun _ => [⟨2, 0⟩, ⟨1 / 2, 0⟩, ⟨-1, 0⟩]

noncomputable def wX : List ℝ := [1 / 2, 1 / 2]

noncomputable def wParams : SRKParams :=
  ⟨[1, 1], 0.42747, 0.08664, [1, 1], [1, 1]⟩

theorem wParams_eval :
    getSRKParams wData [] 1 1 wX = (.ok wParams, [((1, 1, wX), wParams)]) := by
  unfold getSRKParams wData wX wParams
  norm_num [dot, Real.sqrt_one]

theorem wKept_eval (L : List ℝ) :
    positiveRealRoots (wOracle L) = [2, 1 / 2] := by
  unfold wOracle positiveRealRoots
  norm_num [List.filter_cons, decide_eq_true_eq]

/-- Witness for C1 at the concrete fixture: the kept roots are `[2, 1/2]`,
the vapor phase selects `2` (the maximum) and the liquid phase `1/2`
(the minimum). -/
theorem c1_root_selection_witness :
    (∀ z, z ∈ ([2, 1 / 2] : List ℝ) ↔
      ∃ r ∈ wOracle [1, -1, wParams.A_mix - wParams.B_mix - wParams.B_mix ^ 2,
          -1 * (wParams.A_mix * wParams.B_mix)],
        |r.im| < 1e-10 ∧ r.re = z ∧ 0 < z) ∧
    (([2, 1 / 2] : List ℝ) ≠ [] →
      (∃ zv, get_compressibility_factor wOracle wData [] "v" 1 1 wX =
          (.ok zv, [((1, 1, wX), wParams)]) ∧ zv ∈ ([2, 1 / 2] : List ℝ) ∧
          ∀ w ∈ ([2, 1 / 2] : List ℝ), w ≤ zv) ∧
      (∃ zl, get_compressibility_factor wOracle wData [] "l" 1 1 wX =
          (.ok zl, [((1, 1, wX), wParams)]) ∧ zl ∈ ([2, 1 / 2] : List ℝ) ∧
          ∀ w ∈ ([2, 1 / 2] : List ℝ), zl ≤ w)) :=
  c1_root_selection wOracle wData [] [((1, 1, wX), wParams)] 1 1 wX wParams
    [2, 1 / 2] wParams_eval (wKept_eval _).symm

/-- The error values raised by the rest of the embedded program (the
single-component mixing-rule fallthrough and the three stream-construction
validation failures), against which the two compressibility-factor errors
must be distinguishable. -/
def otherRaisedErrors : List PyError :=
  [.unboundLocalError "local variable 'alpha' referenced before assignment",
   .valueError "Molar_composition must sum to 1.0",
   .valueError "Composition has negative entries.",
   .valueError "Composition length does not match backend components."]

/-- C4: with the mixture parameters available, `get_compressibility_factor`
fails with the invalid-phase error exactly when the phase designates
neither vapor nor liquid, fails with the no-physical-root error exactly
when the phase is valid but no strictly positive real root was kept,
returns a value in all other cases, and the two error values are
distinguishable from each other and from every other failure value raised
in the program. -/
theorem c4_error_classes (rootsOf : List ℝ → List Cplx)
    (data : PureComponentData) (cache c : SRKCache) (T P : ℝ)
    (x : List ℝ) (phase : String) (params : SRKParams)
    (hp : getSRKParams data cache T P x = (.ok params, c)) :
    (phase ≠ "v" → phase ≠ "l" →
      get_compressibility_factor rootsOf data cache phase T P x =
        (.error (.exception
          "Phase is not specified properly, please select either 'v' for vapour or 'l' for liquid"),
         c)) ∧
    ((phase = "v" ∨ phase = "l") →
      (positiveRealRoots (rootsOf
          [1, -1, params.A_mix - params.B_mix - params.B_mix ^ 2,
            -1 * (params.A_mix * params.B_mix)]) = [] ↔
        get_compressibility_factor rootsOf data cache phase T P x =
          (.error (.valueError "No physically meaningful compressibility factor found"),
           c))) ∧
    ((phase = "v" ∨ phase = "l") →
      positiveRealRoots (rootsOf
          [1, -1, params.A_mix - params.B_mix - params.B_mix ^ 2,
            -1 * (params.A_mix * params.B_mix)]) ≠ [] →
      ∃ z, get_compressibility_factor rootsOf data cache phase T P x =
        (.ok z, c)) ∧
    ((PyError.exception
        "Phase is not specified properly, please select either 'v' for vapour or 'l' for liquid" ≠
      PyError.valueError "No physically meaningful compressibility factor found") ∧
      ∀ e ∈ otherRaisedErrors,
        PyError.exception
          "Phase is not specified properly, please select either 'v' for vapour or 'l' for liquid" ≠ e ∧
        PyError.valueError "No physically meaningful compressibility factor found" ≠ e) := by
  refine ⟨?_, ?_, ?_, by decide⟩
  · intro hv hl
    unfold get_compressibility_factor
    rw [hp]
    dsimp only
    rw [if_neg hv, if_neg hl]
  · rintro (hph | hph) <;> subst hph
    · unfold get_compressibility_factor
      rw [hp]
      dsimp only
      rw [if_pos rfl]
      cases h : npMax (positiveRealRoots (rootsOf
          [1, -1, params.A_mix - params.B_mix - params.B_mix ^ 2,
            -1 * (params.A_mix * params.B_mix)])) with
      | none =>
        exact iff_of_true ((npMax_eq_none_iff _).mp h) rfl
      | some z =>
        have hne : positiveRealRoots (rootsOf
            [1, -1, params.A_mix - params.B_mix - params.B_mix ^ 2,
              -1 * (params.A_mix * params.B_mix)]) ≠ [] := by
          intro hnil
          rw [hnil] at h
          simp [npMax] at h
        exact iff_of_false hne (by simp)
    · unfold get_compressibility_factor
      rw [hp]
      dsimp only
      rw [if_neg (by decide), if_pos rfl]
      cases h : npMin (positiveRealRoots (rootsOf
          [1, -1, params.A_mix - params.B_mix - params.B_mix ^ 2,
            -1 * (params.A_mix * params.B_mix)])) with
      | none =>
        exact iff_of_true ((npMin_eq_none_iff _).mp h) rfl
      | some z =>
        have hne : positiveRealRoots (rootsOf
            [1, -1, params.A_mix - params.B_mix - params.B_mix ^ 2,
              -1 * (params.A_mix * params.B_mix)]) ≠ [] := by
          intro hnil
          rw [hnil] at h
          simp [npMin] at h
        exact iff_of_false hne (by simp)
  · rintro (hph | hph) hne <;> subst hph
    · obtain ⟨z, hz⟩ : ∃ m, npMax (positiveRealRoots (rootsOf
          [1, -1, params.A_mix - params.B_mix - params.B_mix ^ 2,
            -1 * (params.A_mix * params.B_mix)])) = some m := by
        cases h : npMax (positiveRealRoots _) with
        | none => exact absurd ((npMax_eq_none_iff _).mp h) hne
        | some m => exact ⟨m, rfl⟩
      refine ⟨z, ?_⟩
      unfold get_compressibility_factor
      rw [hp]
      dsimp only
      rw [if_pos rfl, hz]
    · obtain ⟨z, hz⟩ : ∃ m, npMin (positiveRealRoots (rootsOf
          [1, -1, params.A_mix - params.B_mix - params.B_mix ^ 2,
            -1 * (params.A_mix * params.B_mix)])) = some m := by
        cases h : npMin (positiveRealRoots _) with
        | none => exact absurd ((npMin_eq_none_iff _).mp h) hne
        | some m => exact ⟨m, rfl⟩
      refine ⟨z, ?_⟩
      unfold get_compressibility_factor
      rw [hp]
      dsimp only
      rw [if_neg (by decide), if_pos rfl, hz]

/-- Witness for C4 at the concrete fixture with the invalid phase string
`'x'`. -/
theorem c4_error_classes_witness :
    (("x" : String) ≠ "v" → ("x" : String) ≠ "l" →
      get_compressibility_factor wOracle wData [] "x" 1 1 wX =
        (.error (.exception
          "Phase is not specified properly, please select either 'v' for vapour or 'l' for liquid"),
         [((1, 1, wX), wParams)])) ∧
    ((("x" : String) = "v" ∨ ("x" : String) = "l") →
      (positiveRealRoots (wOracle
          [1, -1, wParams.A_mix - wParams.B_mix - wParams.B_mix ^ 2,
            -1 * (wParams.A_mix * wParams.B_mix)]) = [] ↔
        get_compressibility_factor wOracle wData [] "x" 1 1 wX =
          (.error (.valueError "No physically meaningful compressibility factor found"),
           [((1, 1, wX), wParams)]))) ∧
    ((("x" : String) = "v" ∨ ("x" : String) = "l") →
      positiveRealRoots (wOracle
          [1, -1, wParams.A_mix - wParams.B_mix - wParams.B_mix ^ 2,
            -1 * (wParams.A_mix * wParams.B_mix)]) ≠ [] →
      ∃ z, get_compressibility_factor wOracle wData [] "x" 1 1 wX =
        (.ok z, [((1, 1, wX), wParams)])) ∧
    ((PyError.exception
        "Phase is not specified properly, please select either 'v' for vapour or 'l' for liquid" ≠
      PyError.valueError "No physically meaningful compressibility factor found") ∧
      ∀ e ∈ otherRaisedErrors,
        PyError.exception
          "Phase is not specified properly, please select either 'v' for vapour or 'l' for liquid" ≠ e ∧
        PyError.valueError "No physically meaningful compressibility factor found" ≠ e) :=
  c4_error_classes wOracle wData [] [((1, 1, wX), wParams)] 1 1 wX "x" wParams
    wParams_eval

/-- C5 (code behavior): on a fresh cache, a composition with at most one
component makes the parameter calculation skip the guarded mixing-rule
branch and fail with Python's `UnboundLocalError` on the unassigned local
`alpha` — not with the `PreconditionError` the specification requires. -/
theorem c5_single_component_unbound_local (data : PureComponentData)
    (T P : ℝ) (x : List ℝ) (hlen : x.length ≤ 1) :
    getSRKParams data [] T P x =
      (.error (.unboundLocalError "local variable 'alpha' referenced before assignment"),
       []) := by
  unfold getSRKParams
  dsimp only
  rw [dictLookup_nil]
  rw [if_neg (Nat.not_lt.mpr hlen)]

/-- Witness for C5: the concrete single-component composition `[1.0]` at
`T = 300`, `P = 1e5`. -/
theorem c5_single_component_unbound_local_witness :
    getSRKParams wData [] 300 1e5 [1] =
      (.error (.unboundLocalError "local variable 'alpha' referenced before assignment"),
       []) :=
  c5_single_component_unbound_local wData 300 1e5 [1] (by simp)

/-- C8: the mixture-parameter cache policy.  If the cache holds at most one
entry before a call, it holds at most one entry after it; a call whose
exact `(T, P, composition)` key is cached returns the cached parameters
with the cache untouched; a call whose key is absent and whose composition
has two or more components replaces the whole cache with the single entry
for the new key. -/
theorem c8_cache_policy (data : PureComponentData) (cache : SRKCache)
    (T P : ℝ) (x : List ℝ) :
    (cache.length ≤ 1 → ((getSRKParams data cache T P x).2).length ≤ 1) ∧
    (∀ p, dictLookup cache (T, P, x) = some p →
      getSRKParams data cache T P x = (.ok p, cache)) ∧
    (dictLookup cache (T, P, x) = none → 1 < x.length →
      ∃ p, getSRKParams data cache T P x = (.ok p, [((T, P, x), p)])) := by
  refine ⟨?_, ?_, ?_⟩
  · intro hc
    unfold getSRKParams
    dsimp only
    cases h : dictLookup cache (T, P, x) with
    | some p => exact hc
    | none =>
      by_cases hl : 1 < x.length
      · rw [if_pos hl]
        simp
      · rw [if_neg hl]
        exact hc
  · intro p hp
    unfold getSRKParams
    dsimp only
    rw [hp]
  · intro hmiss hl
    unfold getSRKParams
    dsimp only
    rw [hmiss]
    dsimp only
    rw [if_pos hl]
    exact ⟨_, rfl⟩

/-- Witness for C8: the empty cache stays within one entry and is replaced
by the single new entry on a computing call, and a one-entry cache whose
key matches is hit without modification. -/
theorem c8_cache_policy_witness :
    (((getSRKParams wData [] 1 1 wX).2).length ≤ 1) ∧
    (getSRKParams wData [((1, 1, wX), wParams)] 1 1 wX =
      (.ok wParams, [((1, 1, wX), wParams)])) ∧
    (∃ p, getSRKParams wData [] 1 1 wX = (.ok p, [((1, 1, wX), p)])) :=
  ⟨(c8_cache_policy wData [] 1 1 wX).1 (by simp),
   (c8_cache_policy wData [((1, 1, wX), wParams)] 1 1 wX).2.1 wParams
     (by simp [dictLookup]),
   (c8_cache_policy wData [] 1 1 wX).2.2 (dictLookup_nil _) (by simp [wX])⟩

/-- C6: stream construction validates the composition eagerly.  A
composition summing to 1 within `1e-12`, with no entry below the `-1e-12`
negativity cutoff and with length matching the component list, is
accepted; a composition summing to `1.05` fails with the sum `ValueError`;
a composition containing the entry `-1e-6` fails with a `ValueError`; a
composition whose length differs from the component list fails with a
`ValueError`.  All failures occur in the constructor (`__post_init__`),
not in a later property query. -/
theorem c6_stream_validation (s : StreamData) :
    (|s.molar_composition.sum - 1| ≤ 1e-12 →
      (∀ z ∈ s.molar_composition, ¬ z < -1e-12) →
      s.molar_composition.length = s.components.length →
      streamPostInit s = .ok s) ∧
    (s.molar_composition.sum = 1.05 →
      streamPostInit s = .error (.valueError "Molar_composition must sum to 1.0")) ∧
    ((-1e-6 : ℝ) ∈ s.molar_composition →
      ∃ msg, streamPostInit s = .error (.valueError msg)) ∧
    (s.molar_composition.length ≠ s.components.length →
      ∃ msg, streamPostInit s = .error (.valueError msg)) := by
  refine ⟨?_, ?_, ?_, ?_⟩
  · intro hsum hneg hlen
    have hclose : npIsclose s.molar_composition.sum 1.0 := by
      unfold npIsclose
      rw [show ((1.0 : ℝ)) = 1 by norm_num, abs_one]
      calc |s.molar_composition.sum - 1| ≤ 1e-12 := hsum
        _ ≤ 1e-12 + 1e-5 * 1 := by norm_num
    have hany : s.molar_composition.any (fun z => decide (z < -1e-12)) = false := by
      rw [List.any_eq_false]
      intro z hz
      simpa using hneg z hz
    unfold streamPostInit
    rw [if_neg (not_not_intro hclose)]
    rw [hany]
    simp [hlen]
  · intro hsum
    have hfar : ¬ npIsclose s.molar_composition.sum 1.0 := by
      unfold npIsclose
      rw [hsum]
      rw [show |(1.05 : ℝ) - 1.0| = 0.05 by rw [abs_of_pos] <;> norm_num]
      rw [show |(1.0 : ℝ)| = 1 by norm_num]
      norm_num
    unfold streamPostInit
    rw [if_pos hfar]
  · intro hmem
    unfold streamPostInit
    by_cases h1 : npIsclose s.molar_composition.sum 1.0
    · rw [if_neg (not_not_intro h1)]
      have hany : s.molar_composition.any (fun z => decide (z < -1e-12)) = true := by
        rw [List.any_eq_true]
        exact ⟨-1e-6, hmem, by norm_num⟩
      rw [hany]
      exact ⟨_, rfl⟩
    · rw [if_pos h1]
      exact ⟨_, rfl⟩
  · intro hlen
    unfold streamPostInit
    by_cases h1 : npIsclose s.molar_composition.sum 1.0
    · rw [if_neg (not_not_intro h1)]
      cases hany : s.molar_composition.any (fun z => decide (z < -1e-12)) with
      | true => exact ⟨_, rfl⟩
      | false =>
        rw [if_neg (by simp [hany])]
        rw [if_pos hlen]
        exact ⟨_, rfl⟩
    · rw [if_pos h1]
      exact ⟨_, rfl⟩

/-- Witness for C6 at the spec's concrete compositions: sum `1.0 + 1e-13`
accepted, sum `1.05` rejected, an entry `-1e-6` rejected, and a length
mismatch rejected. -/
theorem c6_stream_validation_witness :
    streamPostInit ⟨1e5, 300, ["a", "b"], [0.5, 0.5 + 1e-13], 1⟩ =
      .ok ⟨1e5, 300, ["a", "b"], [0.5, 0.5 + 1e-13], 1⟩ ∧
    streamPostInit ⟨1e5, 300, ["a", "b"], [0.5, 0.55], 1⟩ =
      .error (.valueError "Molar_composition must sum to 1.0") ∧
    (∃ msg, streamPostInit ⟨1e5, 300, ["a", "b"], [1 + 1e-6, -1e-6], 1⟩ =
      .error (.valueError msg)) ∧
    (∃ msg, streamPostInit ⟨1e5, 300, ["a"], [0.5, 0.5], 1⟩ =
      .error (.valueError msg)) :=
  ⟨(c6_stream_validation _).1
      (by
        simp only [List.sum_cons, List.sum_nil]
        rw [abs_le]
        constructor <;> norm_num)
      (by intro z hz; fin_cases hz <;> norm_num)
      (by simp),
   (c6_stream_validation _).2.1 (by norm_num [List.sum_cons, List.sum_nil]),
   (c6_stream_validation _).2.2.1 (by simp),
   (c6_stream_validation _).2.2.2 (by simp)⟩

/-! Helper lemmas for C7: pointwise identification of the code's vector
expressions with the spec formulas, and the scaling algebra linking the
dimensionless mixture parameters with the `a_mix`/`b_mix` form. -/

theorem alpha_eval (T : ℝ) (omega Tc : List ℝ) :
    List.zipWith (fun mi tri => (1 + mi * (1 - Real.sqrt tri)) ^ 2)
      (omega.map (fun w => 0.48 + 1.574 * w - 0.176 * w ^ 2))
      (Tc.map (fun tc => T / tc)) =
    List.zipWith (fun w tc => specAlpha T tc w) omega Tc := by
  induction omega generalizing Tc with
  | nil => simp
  | cons a t ih =>
    cases Tc with
    | nil => simp
    | cons b u => simp [specAlpha, specM, ih]

theorem avec_eval (T : ℝ) (omega Tc Pc : List ℝ) :
    List.zipWith (fun tc other => tc * Real.sqrt other.1 / Real.sqrt other.2)
      Tc ((List.zipWith (fun w tc => specAlpha T tc w) omega Tc).zip Pc) =
    List.zipWith
      (fun w other => other.1 * Real.sqrt (specAlpha T other.1 w) / Real.sqrt other.2)
      omega (Tc.zip Pc) := by
  induction omega generalizing Tc Pc with
  | nil => simp
  | cons a t ih =>
    cases Tc with
    | nil => simp
    | cons b u =>
      cases Pc with
      | nil => simp
      | cons c v => simp [ih]

theorem dot_map_smul (k : ℝ) (a b : List ℝ) :
    dot a (b.map (fun v => k * v)) = k * dot a b := by
  induction a generalizing b with
  | nil => simp [dot]
  | cons x xs ih =>
    cases b with
    | nil => simp [dot]
    | cons y ys =>
      simp only [List.map_cons, dot, List.zip_cons_cons, List.map, List.sum_cons]
      have h2 := ih ys
      simp only [dot, List.zip] at h2 ⊢
      rw [h2]
      ring

theorem Rgas_pos : (0 : ℝ) < Rgas := by unfold Rgas; norm_num

theorem sqrt_spec_a (T tc pc w : ℝ) (htc : 0 ≤ tc) :
    Real.sqrt (spec_a T tc pc w) =
      Real.sqrt 0.42747 * Rgas *
        (tc * Real.sqrt (specAlpha T tc w) / Real.sqrt pc) := by
  unfold spec_a
  rw [show (0.42747 : ℝ) * (Rgas ^ 2 * tc ^ 2) / pc * specAlpha T tc w
      = 0.42747 * ((Rgas * tc) ^ 2 * (specAlpha T tc w / pc)) by ring]
  rw [Real.sqrt_mul (by norm_num), Real.sqrt_mul (sq_nonneg _)]
  rw [Real.sqrt_sq (mul_nonneg Rgas_pos.le htc)]
  rw [Real.sqrt_div (by unfold specAlpha; positivity)]
  ring

theorem sqrt_a_vec (T : ℝ) (omega Tc Pc : List ℝ)
    (hTc : ∀ tc ∈ Tc, 0 ≤ tc) :
    List.zipWith (fun w other => Real.sqrt (spec_a T other.1 other.2 w))
      omega (Tc.zip Pc) =
    (List.zipWith
      (fun w other => other.1 * Real.sqrt (specAlpha T other.1 w) / Real.sqrt other.2)
      omega (Tc.zip Pc)).map
        (fun v => Real.sqrt 0.42747 * Rgas * v) := by
  induction omega generalizing Tc Pc with
  | nil => simp
  | cons a t ih =>
    cases Tc with
    | nil => simp
    | cons b u =>
      cases Pc with
      | nil => simp
      | cons c v =>
        simp only [List.zip_cons_cons, List.zipWith_cons_cons, List.map_cons]
        refine congrArg₂ _ ?_ ?_
        · exact sqrt_spec_a T b c a (hTc b (List.mem_cons_self b u))
        · exact ih u v (fun tc htc => hTc tc (List.mem_cons_of_mem b htc))

theorem bvec_smul (Tc Pc : List ℝ) :
    List.zipWith spec_b Tc Pc =
      (List.zipWith (fun tc pc => tc / pc) Tc Pc).map
        (fun v => 0.08664 * Rgas * v) := by
  induction Tc generalizing Pc with
  | nil => simp
  | cons b u ih =>
    cases Pc with
    | nil => simp
    | cons c v =>
      simp only [List.zipWith_cons_cons, List.map_cons]
      refine congrArg₂ _ ?_ (ih v)
      unfold spec_b
      ring

/-- C7: on a computing call with two or more components, the parameter
calculation returns the per-component SRK alpha function
`alpha_i = (1 + m_i*(1 - sqrt(T/Tc_i)))^2` with
`m_i = 0.48 + 1.574*omega_i - 0.176*omega_i^2`, and the van der Waals
one-fluid mixture parameters
`A_mix = 0.42747*(P/T^2)*(sum_i x_i*Tc_i*sqrt(alpha_i)/sqrt(Pc_i))^2` and
`B_mix = 0.08664*(P/T)*sum_i x_i*Tc_i/Pc_i`; equivalently (for
nonnegative critical temperatures and `T ≠ 0`)
`A_mix = a_mix*P/(R*T)^2` and `B_mix = b_mix*P/(R*T)` with
`a_mix = (sum_i x_i*sqrt(a_i))^2` and `b_mix = sum_i x_i*b_i`. -/
theorem c7_mixture_parameters (data : PureComponentData) (cache : SRKCache)
    (T P : ℝ) (x : List ℝ)
    (hmiss : dictLookup cache (T, P, x) = none)
    (hlen : 1 < x.length)
    (hTc : ∀ tc ∈ data.Tc, 0 ≤ tc)
    (hT : T ≠ 0) :
    ∃ p, getSRKParams data cache T P x = (.ok p, [((T, P, x), p)]) ∧
      p.alpha = List.zipWith (fun w tc => specAlpha T tc w) data.omega data.Tc ∧
      p.A_mix = 0.42747 * P / T ^ 2 *
        (dot x (List.zipWith
          (fun w other => other.1 * Real.sqrt (specAlpha T other.1 w) / Real.sqrt other.2)
          data.omega (data.Tc.zip data.Pc))) ^ 2 ∧
      p.B_mix = 0.08664 * P / T *
        (dot x (List.zipWith (fun tc pc => tc / pc) data.Tc data.Pc)) ∧
      p.A_mix = spec_a_mix T x data.omega data.Tc data.Pc * P / (Rgas * T) ^ 2 ∧
      p.B_mix = spec_b_mix x data.Tc data.Pc * P / (Rgas * T) := by
  have hR : Rgas ≠ 0 := Rgas_pos.ne'
  have h42 : Real.sqrt 0.42747 ^ 2 = (0.42747 : ℝ) := Real.sq_sqrt (by norm_num)
  unfold getSRKParams
  dsimp only
  rw [hmiss]
  dsimp only
  rw [if_pos hlen]
  refine ⟨_, rfl, ?_, ?_, ?_, ?_, ?_⟩
  · dsimp only
    exact alpha_eval T data.omega data.Tc
  · dsimp only
    rw [alpha_eval, avec_eval]
  · rfl
  · dsimp only
    rw [alpha_eval, avec_eval]
    unfold spec_a_mix
    rw [sqrt_a_vec T data.omega data.Tc data.Pc hTc, dot_map_smul]
    rw [show (Real.sqrt 0.42747 * Rgas *
        dot x (List.zipWith (fun w other =>
          other.1 * Real.sqrt (specAlpha T other.1 w) / Real.sqrt other.2)
          data.omega (data.Tc.zip data.Pc))) ^ 2
      = 0.42747 * Rgas ^ 2 *
        (dot x (List.zipWith (fun w other =>
          other.1 * Real.sqrt (specAlpha T other.1 w) / Real.sqrt other.2)
          data.omega (data.Tc.zip data.Pc))) ^ 2 by
        rw [mul_pow, mul_pow, h42]]
    field_simp
    ring
  · dsimp only
    unfold spec_b_mix
    rw [bvec_smul, dot_map_smul]
    field_simp
    ring

/-- Witness for C7 at the concrete fixture. -/
theorem c7_mixture_parameters_witness :
    ∃ p, getSRKParams wData [] 1 1 wX = (.ok p, [((1, 1, wX), p)]) ∧
      p.alpha = List.zipWith (fun w tc => specAlpha 1 tc w) wData.omega wData.Tc ∧
      p.A_mix = 0.42747 * 1 / 1 ^ 2 *
        (dot wX (List.zipWith
          (fun w other => other.1 * Real.sqrt (specAlpha 1 other.1 w) / Real.sqrt other.2)
          wData.omega (wData.Tc.zip wData.Pc))) ^ 2 ∧
      p.B_mix = 0.08664 * 1 / 1 *
        (dot wX (List.zipWith (fun tc pc => tc / pc) wData.Tc wData.Pc)) ∧
      p.A_mix = spec_a_mix 1 wX wData.omega wData.Tc wData.Pc * 1 / (Rgas * 1) ^ 2 ∧
      p.B_mix = spec_b_mix wX wData.Tc wData.Pc * 1 / (Rgas * 1) :=
  c7_mixture_parameters wData [] 1 1 wX (dictLookup_nil _) (by simp [wX])
    (by intro tc htc; unfold wData at htc; fin_cases htc <;> norm_num)
    (by norm_num)

/-- Inversion of a successful `get_fugacity_coefs` call: the parameters
were obtained, the compressibility factor was evaluated for the vapor
phase, and the result is the exponential of the log-coefficient vector. -/
theorem fug_ok_inversion (rootsOf : List ℝ → List Cplx)
    (data : PureComponentData) (cache : SRKCache) (T P : ℝ) (x : List ℝ)
    (v : List ℝ) (cEnd : SRKCache)
    (h : get_fugacity_coefs rootsOf data cache T P x = (.ok v, cEnd)) :
    ∃ params c1 Z,
      getSRKParams data cache T P x = (.ok params, c1) ∧
      get_compressibility_factor rootsOf data c1 "v" T P x = (.ok Z, cEnd) ∧
      v = (phiLog params Z x).map Real.exp := by
  unfold get_fugacity_coefs at h
  cases hp : getSRKParams data cache T P x with
  | mk r c1 =>
    cases r with
    | error e =>
      rw [hp] at h
      simp at h
    | ok params =>
      rw [hp] at h
      dsimp only at h
      cases hz : get_compressibility_factor rootsOf data c1 "v" T P x with
      | mk rz c2 =>
        cases rz with
        | error e2 =>
          rw [hz] at h
          simp at h
        | ok Z =>
          rw [hz] at h
          dsimp only at h
          have hpair : (phiLog params Z x).map Real.exp = v ∧ c2 = cEnd := by
            simpa using h
          refine ⟨params, c1, Z, rfl, ?_, hpair.1.symm⟩
          rw [← hpair.2]
          exact hz

/-- C9: whenever `get_fugacity_coefs` returns a vector, it does so by
obtaining the mixture parameters, evaluating the compressibility factor
for the vapor phase (never the liquid root), computing the per-component
log coefficients `phi_log` as the sum of correction terms in `Z`,
`A_mix`, `B_mix` and the per-component alpha/critical-data fractions, and
only then exponentiating. -/
theorem c9_fugacity_structure (rootsOf : List ℝ → List Cplx)
    (data : PureComponentData) (cache : SRKCache) (T P : ℝ) (x : List ℝ)
    (v : List ℝ) (cEnd : SRKCache)
    (h : get_fugacity_coefs rootsOf data cache T P x = (.ok v, cEnd)) :
    ∃ params c1 Z,
      getSRKParams data cache T P x = (.ok params, c1) ∧
      get_compressibility_factor rootsOf data c1 "v" T P x = (.ok Z, cEnd) ∧
      v = (phiLog params Z x).map Real.exp :=
  fug_ok_inversion rootsOf data cache T P x v cEnd h

/-- C10: every entry of a returned fugacity-coefficient vector is strictly
positive, being the exponential of a real log coefficient. -/
theorem c10_fugacity_positive (rootsOf : List ℝ → List Cplx)
    (data : PureComponentData) (cache : SRKCache) (T P : ℝ) (x : List ℝ)
    (v : List ℝ) (cEnd : SRKCache)
    (h : get_fugacity_coefs rootsOf data cache T P x = (.ok v, cEnd)) :
    ∀ z ∈ v, 0 < z := by
  obtain ⟨params, c1, Z, -, -, hv⟩ :=
    fug_ok_inversion rootsOf data cache T P x v cEnd h
  intro z hz
  rw [hv] at hz
  obtain ⟨w, -, hw⟩ := List.mem_map.mp hz
  exact hw ▸ Real.exp_pos w

theorem wHit_eval :
    getSRKParams wData [((1, 1, wX), wParams)] 1 1 wX =
      (.ok wParams, [((1, 1, wX), wParams)]) := by
  unfold getSRKParams
  dsimp only
  rw [show dictLookup [((1, 1, wX), wParams)] (1, 1, wX) = some wParams by
    simp [dictLookup]]

theorem wZ_eval :
    get_compressibility_factor wOracle wData [((1, 1, wX), wParams)] "v" 1 1 wX =
      (.ok 2, [((1, 1, wX), wParams)]) := by
  unfold get_compressibility_factor
  rw [wHit_eval]
  dsimp only
  rw [if_pos rfl, wKept_eval]
  rw [show npMax [(2 : ℝ), 1 / 2] = some 2 by norm_num [npMax, max_def]]

theorem wFug_eval :
    get_fugacity_coefs wOracle wData [] 1 1 wX =
      (.ok ((phiLog wParams 2 wX).map Real.exp), [((1, 1, wX), wParams)]) := by
  unfold get_fugacity_coefs
  rw [wParams_eval]
  dsimp only
  rw [wZ_eval]

/-- Witness for C9 at the concrete fixture. -/
theorem c9_fugacity_structure_witness :
    ∃ params c1 Z,
      getSRKParams wData [] 1 1 wX = (.ok params, c1) ∧
      get_compressibility_factor wOracle wData c1 "v" 1 1 wX =
        (.ok Z, [((1, 1, wX), wParams)]) ∧
      (phiLog wParams 2 wX).map Real.exp = (phiLog params Z wX).map Real.exp :=
  c9_fugacity_structure wOracle wData [] 1 1 wX
    ((phiLog wParams 2 wX).map Real.exp) [((1, 1, wX), wParams)] wFug_eval

theorem wPhi_eval :
    phiLog wParams 2 wX =
      [1 - Real.log (2 - 0.08664) -
        0.42747 / 0.08664 * Real.log (1 + 0.08664 / 2),
       1 - Real.log (2 - 0.08664) -
        0.42747 / 0.08664 * Real.log (1 + 0.08664 / 2)] := by
  unfold phiLog wParams wX
  norm_num [dot, Real.sqrt_one]

/-- Witness for C10: the first returned coefficient at the concrete
fixture is strictly positive. -/
theorem c10_fugacity_positive_witness :
    0 < Real.exp (1 - Real.log (2 - 0.08664) -
      0.42747 / 0.08664 * Real.log (1 + 0.08664 / 2)) :=
  c10_fugacity_positive wOracle wData [] 1 1 wX
    ((phiLog wParams 2 wX).map Real.exp) [((1, 1, wX), wParams)] wFug_eval
    (Real.exp (1 - Real.log (2 - 0.08664) -
      0.42747 / 0.08664 * Real.log (1 + 0.08664 / 2)))
    (by rw [wPhi_eval]; simp)

/-- C3 (code behavior): `_TPD_stability_test` evaluates no trial-phase
direction and iterates nothing — whenever the single fugacity-coefficient
evaluation succeeds it returns `True` unconditionally, and it can never
raise a `ConvergenceError` (no such exception exists in the code). -/
theorem c3_stability_test_constant_true (rootsOf : List ℝ → List Cplx)
    (data : PureComponentData) (cache : SRKCache) (T P : ℝ) (x : List ℝ) :
    (TPD_stability_test rootsOf data cache T P x).1 = .ok true ∨
    ∃ e, (TPD_stability_test rootsOf data cache T P x).1 = .error e := by
  unfold TPD_stability_test
  cases h : get_fugacity_coefs rootsOf data cache T P x with
  | mk r c =>
    cases r with
    | error e => exact Or.inr ⟨e, rfl⟩
    | ok v => exact Or.inl rfl

/-- C2 (code behavior): `TP_flash` runs the stability test, ignores its
result and returns the Python constant `None` — it never produces a vapor
fraction or phase compositions. -/
theorem c2_tp_flash_returns_none (rootsOf : List ℝ → List Cplx)
    (data : PureComponentData) (cache : SRKCache) (T P : ℝ) (x : List ℝ) :
    (TP_flash rootsOf data cache T P x).1 = .ok none ∨
    ∃ e, (TP_flash rootsOf data cache T P x).1 = .error e := by
  unfold TP_flash
  cases h : TPD_stability_test rootsOf data cache T P x with
  | mk r c =>
    cases r with
    | error e => exact Or.inr ⟨e, rfl⟩
    | ok b => exact Or.inl rfl

end ProcessSim
